import Mathlib

/-!
Verification of the `hourglass` chess engine (crate `hourglass_engine`).

The Rust sources are shallowly embedded: the packed `Piece` bitflags become
`Nat` with bitwise operations, `[Piece; 64]` becomes a length-64 `List Nat`,
`isize` arithmetic becomes `Int` with the `as usize` cast modelled as a wrap
into `0 .. 2^64`, and fallible operations return `Option`/`Except`.
Debug-only assertions (`cfg!(debug_assertions)` blocks) are not modelled:
the embedding follows release semantics, except where a debug-build panic is
the point of a claim (the FEN rank-counter underflow, modelled as `none`).
-/

set_option maxRecDepth 20000

namespace Hourglass

/-- `Piece` is the packed `u8` bitflags value from `pieces.rs`. -/
abbrev Piece := Nat

namespace Piece

def King : Piece := 1

def Pawn : Piece := 2

def Knight : Piece := 3

def Bishop : Piece := 4

def Rook : Piece := 5

def Queen : Piece := 6

def White : Piece := 8

def Black : Piece := 16

/-- `Piece::PieceType` mask (0b111). -/
def PieceType : Piece := 7

/-- `Piece::PlayerType` mask (0b11000). -/
def PlayerType : Piece := 24

/-- `Piece::empty()` from bitflags: the zero value. -/
def emptyP : Piece := 0

end Piece

/-- `Player` from `pieces.rs`. -/
inductive Player
  | White
  | Black
deriving DecidableEq, Repr

namespace Player

/-- `Player::to_piece_color`. -/
def to_piece_color : Player → Piece
  | White => Piece.White
  | Black => Piece.Black

/-- `std::ops::Not for Player`. -/
def not : Player → Player
  | White => Black
  | Black => White

/-- `Player::forward_value`. -/
def forward_value : Player → Int
  | White => 1
  | Black => -1

end Player

/-- `Piece::is_color`. -/
def Piece.is_color (x : Piece) (p : Player) : Bool :=
  x &&& p.to_piece_color != 0

/-- `Piece::is_sliding`: queen, rook or bishop. -/
def Piece.is_sliding (x : Piece) : Bool :=
  let t := x &&& Piece.PieceType
  t == Piece.Queen || t == Piece.Rook || t == Piece.Bishop

/-- `Direction` from `lib.rs`. -/
inductive Direction
  | North
  | South
  | West
  | East
  | NorthWest
  | SouthEast
  | NorthEast
  | SouthWest
deriving DecidableEq, Repr

namespace Direction

/-- `Direction::offset`. -/
def offset : Direction → Int
  | North => 8
  | South => -8
  | West => -1
  | East => 1
  | NorthWest => 7
  | SouthEast => -7
  | NorthEast => 9
  | SouthWest => -9

/-- `Direction::ALL`. -/
def ALL : List Direction :=
  [North, South, West, East, NorthWest, SouthEast, NorthEast, SouthWest]

/-- `Direction::ROOK`. -/
def ROOK : List Direction := [North, South, West, East]

/-- `Direction::BISHOP`. -/
def BISHOP : List Direction := [NorthWest, SouthEast, NorthEast, SouthWest]

end Direction

/-- `Player::forward_dir`. -/
def Player.forward_dir : Player → Direction
  | Player.White => Direction.North
  | Player.Black => Direction.South

/-- The `NUM_SQUARES_TO_EDGE` lookup from `lib.rs`, by its defining
rank/file arithmetic. -/
def squares_to_edge (idx : Nat) (dir : Direction) : Nat :=
  let rank := idx / 8
  let file := idx % 8
  match dir with
  | Direction.North => 7 - rank
  | Direction.South => rank
  | Direction.West => file
  | Direction.East => 7 - file
  | Direction.NorthWest => min (7 - rank) file
  | Direction.SouthEast => min rank (7 - file)
  | Direction.NorthEast => min (7 - rank) (7 - file)
  | Direction.SouthWest => min rank file

/-- `CastleRights` is the packed `u8` bitflags value from `pieces.rs`. -/
abbrev CastleRights := Nat

namespace CastleRights

def WhiteKingSide : CastleRights := 1

def WhiteQueenSide : CastleRights := 2

def BlackKingSide : CastleRights := 4

def BlackQueenSide : CastleRights := 8

/-- `CastleRights::has_right`. -/
def has_right (cr rhs : CastleRights) : Bool :=
  cr &&& rhs != 0

/-- `CastleRights::revoke`. The bitflags complement `!rhs` keeps only the
four defined bits, i.e. it is complement within the mask 0b1111. -/
def revoke (cr rhs : CastleRights) : CastleRights :=
  cr &&& (15 ^^^ rhs)

/-- `CastleRights::revoke_all`. -/
def revoke_all (cr : CastleRights) (p : Player) : CastleRights :=
  match p with
  | Player.White => revoke cr (WhiteKingSide ||| WhiteQueenSide)
  | Player.Black => revoke cr (BlackKingSide ||| BlackQueenSide)

end CastleRights

/-- The `Board` struct from `lib.rs`; `[Piece; 64]` is embedded as a
length-64 list. -/
structure Board where
  squares : List Piece
  castle_rights : CastleRights
  active_color : Player
  en_passant : Option Nat
  halfmove : Nat
  fullmove : Nat
deriving DecidableEq, Repr

/-- `Board::empty`. -/
def Board.emptyB : Board :=
  { squares := List.replicate 64 Piece.emptyP
    castle_rights := 0
    active_color := Player.White
    en_passant := none
    halfmove := 0
    fullmove := 1 }

/-- Rust's `as usize` cast of an `isize`: two's complement wrap into
`0 .. 2^64`.  (An out-of-range result would make the subsequent array
index panic in Rust; everywhere the embedded code is exercised below the
result is in `0 .. 64`.) -/
def usize_cast (i : Int) : Nat :=
  (i % (2 ^ 64)).toNat

/-- `Board::piece_at` / `piece_at_idx`: array indexing. -/
def Board.piece_at (b : Board) (idx : Nat) : Piece :=
  b.squares.getD idx Piece.emptyP

/-- Modelled from the spec: `find_king(position, player)` (declared in the
crate root, which is absent from `src/`) locates the square of `player`'s
king; a position without that king is a precondition violation (the spec
calls it undefined behavior), here the search simply runs off the board and
returns the list length. -/
def find_king (b : Board) (p : Player) : Nat :=
  b.squares.findIdx (fun x => x &&& Piece.PieceType == Piece.King && x.is_color p)

/-- `get_rook_castle_pos` from `lib.rs`. -/
def get_rook_castle_pos (p : Player) (is_east : Bool) : Nat × Nat :=
  match p, is_east with
  | Player.White, false => (0, 3)
  | Player.White, true => (7, 5)
  | Player.Black, false => (56, 59)
  | Player.Black, true => (63, 61)

/-! ### `gen_attacks.rs` -/

/-- The inner ray loop of `get_attacked_sliding`: `fuel` counts the
remaining iterations of `for n in 0..squares_to_edge(start, dir)` and
`step` is `n + 1`. -/
def attack_ray (b : Board) (p : Player) (start : Nat) (dir : Direction) :
    Nat → Nat → List Bool → List Bool
  | 0, _, map => map
  | fuel + 1, step, map =>
    let target := usize_cast (Int.ofNat start + dir.offset * Int.ofNat step)
    let target_piece := b.piece_at target
    if target_piece.is_color p then map
    else
      let map := map.set target true
      if target_piece.is_color p.not then map
      else attack_ray b p start dir fuel (step + 1) map

/-- `get_attacked_sliding`.  The `_ => panic!` arm of the direction match is
unreachable (the caller dispatches on `is_sliding`); it is embedded as the
empty direction list. -/
def get_attacked_sliding (b : Board) (map : List Bool) (p : Player) (start : Nat)
    (piece : Piece) : List Bool :=
  let directions :=
    match piece &&& Piece.PieceType with
    | 4 => Direction.BISHOP
    | 5 => Direction.ROOK
    | 6 => Direction.ALL
    | _ => []
  directions.foldl (fun map dir => attack_ray b p start dir (squares_to_edge start dir) 1 map) map

/-- The `KNIGHT_MOVES` offset table. -/
def KNIGHT_MOVES : List (Int × Int) :=
  [(-2, 1), (-1, 2), (1, 2), (2, 1), (2, -1), (1, -2), (-1, -2), (-2, -1)]

/-- `get_attacked_knight`. -/
def get_attacked_knight (b : Board) (map : List Bool) (p : Player) (start : Nat) :
    List Bool :=
  KNIGHT_MOVES.foldl
    (fun map dxy =>
      let dx := dxy.1
      let dy := dxy.2
      let x_dir := if dx > 0 then Direction.East else Direction.West
      let y_dir := if dy > 0 then Direction.North else Direction.South
      if squares_to_edge start x_dir ≥ dx.natAbs ∧ squares_to_edge start y_dir ≥ dy.natAbs then
        let target := usize_cast (Int.ofNat start + dy * 8 + dx)
        if ¬(b.piece_at target).is_color p then map.set target true else map
      else map)
    map

/-- `get_attacked_pawn`. -/
def get_attacked_pawn (b : Board) (map : List Bool) (p : Player) (start : Nat) :
    List Bool :=
  if squares_to_edge start p.forward_dir < 1 then map
  else
    let forward_target := usize_cast (Int.ofNat start + p.forward_value * 8)
    let map :=
      if squares_to_edge start Direction.West ≥ 1 then
        let target := forward_target - 1
        if ¬(b.piece_at target).is_color p then map.set target true else map
      else map
    if squares_to_edge start Direction.East ≥ 1 then
      let target := forward_target + 1
      if ¬(b.piece_at target).is_color p then map.set target true else map
    else map

/-- `get_attacked_king`. -/
def get_attacked_king (b : Board) (map : List Bool) (p : Player) (start : Nat) :
    List Bool :=
  Direction.ALL.foldl
    (fun map dir =>
      if squares_to_edge start dir ≥ 1 then
        let target := usize_cast (Int.ofNat start + dir.offset)
        if (b.piece_at target).is_color p then map else map.set target true
      else map)
    map

/-- `get_attacked_squares_for`. -/
def get_attacked_squares_for (b : Board) (map : List Bool) (p : Player) (idx : Nat) :
    List Bool :=
  let piece := b.piece_at idx
  let piece_type := piece &&& Piece.PieceType
  if piece.is_sliding then get_attacked_sliding b map p idx piece
  else if piece_type == Piece.Knight then get_attacked_knight b map p idx
  else if piece_type == Piece.Pawn then get_attacked_pawn b map p idx
  else if piece_type == Piece.King then get_attacked_king b map p idx
  else map

/-- `generate_attacks`: the squares attacked by `p`. -/
def generate_attacks (b : Board) (p : Player) : List Bool :=
  b.squares.enum.foldl
    (fun map ip => if ip.2.is_color p then get_attacked_squares_for b map p ip.1 else map)
    (List.replicate 64 false)

/-- `is_in_check` from `gen_attacks.rs`, exactly as written: it indexes the
attack map of `player` itself (not of the opponent) at `player`'s king
square. -/
def is_in_check (b : Board) (p : Player) : Bool :=
  (generate_attacks b p).getD (find_king b p) false

/-- Places a piece on a board (test-harness helper for building concrete
positions). -/
def Board.place (b : Board) (idx : Nat) (p : Piece) : Board :=
  { b with squares := b.squares.set idx p }

/-! ### `lib.rs`: the `Move` type, move generation and `try_move`

Namespace `L` holds the definitions of the crate root `lib.rs`: its `Move`
has no promotion field, its move generation performs no king-safety
filtering, and its castle generation performs no attack-map checks. -/

/-- `InvalidMoveErr` from `lib.rs`. -/
inductive InvalidMoveErr
  | ParseErr
  | NotYourPiece
  | IllegalMove
deriving DecidableEq, Repr

namespace L

/-- The `Move` struct of `lib.rs`: origin and destination square indices
(`BoardIdx` deref), no promotion field. -/
structure Move where
  from_ : Nat
  to_ : Nat
deriving DecidableEq, Repr

/-- The inner ray loop of `generate_sliding_moves` (`lib.rs`): `fuel` counts
the remaining iterations and `step` is `n + 1`. -/
def slide_ray (b : Board) (start : Nat) (dir : Direction) :
    Nat → Nat → List Move → List Move
  | 0, _, moves => moves
  | fuel + 1, step, moves =>
    let target := usize_cast (Int.ofNat start + dir.offset * Int.ofNat step)
    let target_piece := b.piece_at target
    if target_piece.is_color b.active_color then moves
    else
      let moves := moves ++ [⟨start, target⟩]
      if target_piece.is_color b.active_color.not then moves
      else slide_ray b start dir fuel (step + 1) moves

/-- `generate_sliding_moves` (`lib.rs`).  The `_ => panic!` arm is
unreachable and embedded as the empty direction list. -/
def generate_sliding_moves (b : Board) (moves : List Move) (start : Nat)
    (piece : Piece) : List Move :=
  let directions :=
    match piece &&& Piece.PieceType with
    | 4 => Direction.BISHOP
    | 5 => Direction.ROOK
    | 6 => Direction.ALL
    | _ => []
  directions.foldl (fun moves dir => slide_ray b start dir (squares_to_edge start dir) 1 moves)
    moves

/-- `generate_knight_moves` (`lib.rs`). -/
def generate_knight_moves (b : Board) (moves : List Move) (start : Nat) : List Move :=
  KNIGHT_MOVES.foldl
    (fun moves dxy =>
      let dx := dxy.1
      let dy := dxy.2
      let x_dir := if dx > 0 then Direction.East else Direction.West
      let y_dir := if dy > 0 then Direction.North else Direction.South
      if squares_to_edge start x_dir ≥ dx.natAbs ∧ squares_to_edge start y_dir ≥ dy.natAbs then
        let target := usize_cast (Int.ofNat start + dy * 8 + dx)
        if ¬(b.piece_at target).is_color b.active_color then moves ++ [⟨start, target⟩]
        else moves
      else moves)
    moves

/-- `generate_pawn_moves` (`lib.rs`): diagonal captures / en-passant
targets, single push, then double push from the starting rank.  No
promotion handling exists in this version. -/
def generate_pawn_moves (b : Board) (moves : List Move) (start : Nat) : List Move :=
  if squares_to_edge start b.active_color.forward_dir < 1 then moves
  else
    let forward_target := usize_cast (Int.ofNat start + b.active_color.forward_value * 8)
    let moves :=
      if squares_to_edge start Direction.West ≥ 1 then
        let target := forward_target - 1
        if (b.piece_at target).is_color b.active_color.not ∨ b.en_passant = some target then
          moves ++ [⟨start, target⟩]
        else moves
      else moves
    let moves :=
      if squares_to_edge start Direction.East ≥ 1 then
        let target := forward_target + 1
        if (b.piece_at target).is_color b.active_color.not ∨ b.en_passant = some target then
          moves ++ [⟨start, target⟩]
        else moves
      else moves
    if b.squares.getD forward_target Piece.emptyP = Piece.emptyP then
      let moves := moves ++ [⟨start, forward_target⟩]
      if (b.active_color = Player.White ∧ start / 8 = 1)
          ∨ (b.active_color = Player.Black ∧ start / 8 = 6) then
        let target := usize_cast (Int.ofNat start + b.active_color.forward_value * 16)
        if b.piece_at target = Piece.emptyP then moves ++ [⟨start, target⟩] else moves
      else moves
    else moves

/-- `generate_king_castle_directions` (`lib.rs`): castle-rights check,
squares-in-between check, destination check — this version consults no
attack map.  Debug-only assertions are not modelled (release semantics). -/
def generate_king_castle_directions (b : Board) (moves : List Move) (start : Nat)
    (dir : Direction) : List Move :=
  let pair : CastleRights × List Int :=
    match b.active_color, dir with
    | Player.White, Direction.West => (CastleRights.WhiteQueenSide, [-3, -2, -1])
    | Player.White, Direction.East => (CastleRights.WhiteKingSide, [1, 2])
    | Player.Black, Direction.West => (CastleRights.BlackQueenSide, [-3, -2, -1])
    | Player.Black, Direction.East => (CastleRights.BlackKingSide, [1, 2])
    | _, _ => (0, [])
  if ¬ b.castle_rights.has_right pair.1 then moves
  else if pair.2.any (fun i => b.squares.getD (usize_cast (Int.ofNat start + i)) Piece.emptyP ≠ Piece.emptyP) then
    moves
  else
    let target := usize_cast (Int.ofNat start + dir.offset * 2)
    if b.piece_at target ≠ Piece.emptyP then moves
    else moves ++ [⟨start, target⟩]

/-- `generate_king_moves` (`lib.rs`). -/
def generate_king_moves (b : Board) (moves : List Move) (start : Nat) : List Move :=
  let moves :=
    Direction.ALL.foldl
      (fun moves dir =>
        if squares_to_edge start dir ≥ 1 then
          let target := usize_cast (Int.ofNat start + dir.offset)
          if (b.piece_at target).is_color b.active_color then moves
          else moves ++ [⟨start, target⟩]
        else moves)
      moves
  let moves := generate_king_castle_directions b moves start Direction.West
  generate_king_castle_directions b moves start Direction.East

/-- `get_moves_for` (`lib.rs`). -/
def get_moves_for (b : Board) (moves : List Move) (idx : Nat) : List Move :=
  let piece := b.piece_at idx
  if ¬ piece.is_color b.active_color then moves
  else
    let piece_type := piece &&& Piece.PieceType
    if piece.is_sliding then generate_sliding_moves b moves idx piece
    else if piece_type == Piece.Knight then generate_knight_moves b moves idx
    else if piece_type == Piece.Pawn then generate_pawn_moves b moves idx
    else if piece_type == Piece.King then generate_king_moves b moves idx
    else moves

/-- `generate_moves` (`lib.rs`). -/
def generate_moves (b : Board) : List Move :=
  b.squares.enum.foldl
    (fun moves ip => if ip.2.is_color b.active_color then get_moves_for b moves ip.1 else moves)
    []

/-- The mutation section of `try_move` (`lib.rs` lines 223-257), reached
after both validation checks pass: en-passant capture, en-passant
recording, castle rook relocation and rights revocation, piece relocation,
color flip.  `halfmove`/`fullmove` are untouched by the source. -/
def apply_move (b : Board) (m : Move) : Board :=
  let sq1 :=
    if b.en_passant = some m.to_ then
      b.squares.set (usize_cast (Int.ofNat m.to_ - b.active_color.forward_value * 8)) Piece.emptyP
    else b.squares
  let ep2 :=
    if sq1.getD m.from_ Piece.emptyP &&& Piece.PieceType = Piece.Pawn
        ∧ (Int.ofNat m.from_ - Int.ofNat m.to_).natAbs = 16 then
      some (usize_cast (Int.ofNat m.to_ - b.active_color.forward_value * 8))
    else none
  let is_king := sq1.getD m.from_ Piece.emptyP &&& Piece.PieceType = Piece.King
  let move_dist := Int.ofNat m.to_ - Int.ofNat m.from_
  let scr : List Piece × CastleRights :=
    if is_king ∧ move_dist.natAbs = 2 then
      let rp := get_rook_castle_pos b.active_color (decide (0 < move_dist))
      ((sq1.set rp.2 (sq1.getD rp.1 Piece.emptyP)).set rp.1 Piece.emptyP,
        b.castle_rights.revoke_all b.active_color)
    else (sq1, b.castle_rights)
  { b with
    squares := (scr.1.set m.to_ (scr.1.getD m.from_ Piece.emptyP)).set m.from_ Piece.emptyP
    castle_rights := scr.2
    active_color := b.active_color.not
    en_passant := ep2 }

/-- `try_move` (`lib.rs`): ownership check, legality-by-destination check
against `get_moves_for`, then the mutation section.  The mutated board is
returned with the `Result`; the two error returns leave the board as it
was, exactly like the early `return Err(..)` statements. -/
def try_move (b : Board) (m : Move) : Board × Option InvalidMoveErr :=
  if b.squares.getD m.from_ Piece.emptyP &&& b.active_color.to_piece_color = 0 then
    (b, some InvalidMoveErr.NotYourPiece)
  else if ¬ (get_moves_for b [] m.from_).any (fun mv => mv.to_ == m.to_) then
    (b, some InvalidMoveErr.IllegalMove)
  else
    (apply_move b m, none)

/-- `char::to_digit(10)`. -/
def to_digit10 (c : Char) : Option Nat :=
  if c.isDigit then some (c.toNat - 48) else none

/-- `idx_from_pos` (`lib.rs`): note the source adds `letter * 8` for the
file letter and the raw digit value (accepted when in `0..8`). -/
def idx_from_pos (cs : List Char) : Option Nat :=
  match cs with
  | [] => none
  | c1 :: rest =>
    let base : Option Nat :=
      match c1 with
      | 'a' => some (0 * 8)
      | 'b' => some (1 * 8)
      | 'c' => some (2 * 8)
      | 'd' => some (3 * 8)
      | 'e' => some (4 * 8)
      | 'f' => some (5 * 8)
      | 'g' => some (6 * 8)
      | 'h' => some (7 * 8)
      | _ => none
    match base with
    | none => none
    | some idx =>
      match rest with
      | [] => none
      | c2 :: _ =>
        match to_digit10 c2 with
        | some v => if v < 8 then some (idx + v) else none
        | none => none

/-- `Move::new` (`lib.rs`): length-4 check, `split_at(2)`, two
`idx_from_pos` parses. -/
def move_new (cs : List Char) : Option Move :=
  if cs.length ≠ 4 then none
  else
    match idx_from_pos (cs.take 2), idx_from_pos (cs.drop 2) with
    | some f, some t => some ⟨f, t⟩
    | _, _ => none

end L

/-! ### `fen.rs`: the FEN codec

`load_fen` returns `Option (Except FenParseErr Board)`: `some (.ok _)` and
`some (.error _)` are the two Rust `Result` outcomes, while `none` marks
the one unguarded step in parsing — the `rank -= 1` in `parse_board`, which
underflows (a panic in debug builds) when the placement field holds more
`'/'` separators than there are ranks left. -/

/-- `FenPart` from `fen.rs`. -/
inductive FenPart
  | Board
  | ActiveColor
  | CastleRights
  | EnPassant
  | HalfMove
  | FullMove
deriving DecidableEq, Repr

/-- `FenParseErr` from `fen.rs`. -/
inductive FenParseErr
  | MissingComponent (part : FenPart)
  | InvalidData (part : FenPart) (char_idx : Nat) (err_msg : String)
  | TooManyComponents
deriving DecidableEq, Repr

namespace Fen

/-- `piece_from_fen`. -/
def piece_from_fen (c : Char) : Option Piece :=
  let piece_type : Option Piece :=
    match c.toLower with
    | 'k' => some Piece.King
    | 'p' => some Piece.Pawn
    | 'n' => some Piece.Knight
    | 'b' => some Piece.Bishop
    | 'r' => some Piece.Rook
    | 'q' => some Piece.Queen
    | _ => none
  piece_type.map fun t => (if c.isUpper then Piece.White else Piece.Black) ||| t

/-- The loop body of `parse_board`, recursing over the placement characters
with the enumeration index, the current file and rank, and the squares
array.  The digit branch mirrors the Rust `for idx in 0..num` loop with its
per-index `get_mut` bounds check; the `'/'` branch mirrors the unguarded
`rank -= 1` (underflow at `rank = 0` is the `none` outcome). -/
def parse_board_aux : List Char → Nat → Nat → Nat → List Piece →
    Option (Except FenParseErr (List Piece))
  | [], _, _, _, squares => some (Except.ok squares)
  | c :: cs, char_idx, file, rank, squares =>
    if c = '/' then
      if rank = 0 then none
      else parse_board_aux cs (char_idx + 1) 0 (rank - 1) squares
    else
      match L.to_digit10 c with
      | some num =>
        if num = 0 then parse_board_aux cs (char_idx + 1) (file + num) rank squares
        else if rank * 8 + file + num ≤ squares.length then
          let squares :=
            (List.range num).foldl (fun s idx => s.set (rank * 8 + file + idx) Piece.emptyP)
              squares
          parse_board_aux cs (char_idx + 1) (file + num) rank squares
        else some (Except.error (FenParseErr.InvalidData FenPart.Board char_idx "overran board"))
      | none =>
        match piece_from_fen c with
        | none =>
          some (Except.error (FenParseErr.InvalidData FenPart.Board char_idx "invalid char"))
        | some piece =>
          if rank * 8 + file < squares.length then
            parse_board_aux cs (char_idx + 1) (file + 1) rank (squares.set (rank * 8 + file) piece)
          else some (Except.error (FenParseErr.InvalidData FenPart.Board char_idx "overran board"))

/-- `parse_board`: starts at file 0, rank 7. -/
def parse_board (squares : List Piece) (cs : List Char) :
    Option (Except FenParseErr (List Piece)) :=
  parse_board_aux cs 0 0 7 squares

/-- `parse_active_color`. -/
def parse_active_color (cs : List Char) : Except FenParseErr Player :=
  if cs = ['w'] then Except.ok Player.White
  else if cs = ['b'] then Except.ok Player.Black
  else
    Except.error
      (FenParseErr.InvalidData FenPart.ActiveColor 0 "the active color must be 'w' or 'b'")

/-- `parse_castling`: ORs each recognized character into the rights the
board already holds (the source never clears them first); any other
character — including `'-'` — is an error. -/
def parse_castling (cr : CastleRights) : List Char → Nat → Except FenParseErr CastleRights
  | [], _ => Except.ok cr
  | c :: cs, c_idx =>
    match (match c with
      | 'K' => some CastleRights.WhiteKingSide
      | 'Q' => some CastleRights.WhiteQueenSide
      | 'k' => some CastleRights.BlackKingSide
      | 'q' => some CastleRights.BlackQueenSide
      | _ => none) with
    | some r => parse_castling (cr ||| r) cs (c_idx + 1)
    | none =>
      Except.error
        (FenParseErr.InvalidData FenPart.CastleRights c_idx
          "character must be either 'K', 'Q', 'k', or 'q'")

/-- Modelled from the spec: `square_name_to_idx` (declared in the crate
root, which is absent from `src/`) maps a two-character algebraic square
name to its `rank*8+file` index (`a1 = 0 … h8 = 63`). -/
def square_name_to_idx (cs : List Char) : Option Nat :=
  match cs with
  | [f, r] =>
    if 'a' ≤ f ∧ f ≤ 'h' ∧ '1' ≤ r ∧ r ≤ '8' then
      some ((r.toNat - 49) * 8 + (f.toNat - 97))
    else none
  | _ => none

/-- Modelled from the spec: `idx_to_square_name`, the inverse of
`square_name_to_idx`, `none` for an index outside `0 .. 64`. -/
def idx_to_square_name (idx : Nat) : Option (List Char) :=
  if idx < 64 then some [Char.ofNat (97 + idx % 8), Char.ofNat (49 + idx / 8)] else none

/-- `parse_en_passant`. -/
def parse_en_passant (cs : List Char) : Except FenParseErr (Option Nat) :=
  if cs = ['-'] then Except.ok none
  else
    match square_name_to_idx cs with
    | some idx => Except.ok (some idx)
    | none =>
      Except.error
        (FenParseErr.InvalidData FenPart.EnPassant 0
          "the en passant section must be a board position or a '-'")

/-- `u32::from_str`: an optional leading `'+'`, then at least one decimal
digit, value below `2^32`. -/
def parse_u32 (cs : List Char) : Option Nat :=
  let digits := match cs with
    | '+' :: rest => rest
    | _ => cs
  if digits ≠ [] ∧ digits.all Char.isDigit then
    let v := digits.foldl (fun acc c => acc * 10 + (c.toNat - 48)) 0
    if v < 2 ^ 32 then some v else none
  else none

/-- `parse_halfmove`. -/
def parse_halfmove (cs : List Char) : Except FenParseErr Nat :=
  match parse_u32 cs with
  | some v => Except.ok v
  | none =>
    Except.error
      (FenParseErr.InvalidData FenPart.HalfMove 0
        "halfmove part of the fen should be an unsigned int")

/-- `parse_fullmove`. -/
def parse_fullmove (cs : List Char) : Except FenParseErr Nat :=
  match parse_u32 cs with
  | some v => Except.ok v
  | none =>
    Except.error
      (FenParseErr.InvalidData FenPart.FullMove 0
        "fullmove part of the fen should be an unsigned int")

/-- `str::split(' ')`: every space separates, empty pieces kept, always at
least one piece. -/
def split_spaces : List Char → List (List Char)
  | [] => [[]]
  | c :: rest =>
    let ps := split_spaces rest
    if c = ' ' then [] :: ps
    else
      match ps with
      | p :: ps2 => (c :: p) :: ps2
      | [] => [[c]]

/-- `load_fen`: exactly six space-separated fields, parsed in order onto
the receiver board (each `parse_*` mutates one field of `self`). -/
def load_fen (b : Board) (cs : List Char) : Option (Except FenParseErr Board) :=
  match split_spaces cs with
  | board :: active :: castling :: enp :: half :: full :: rest =>
    if rest ≠ [] then some (Except.error FenParseErr.TooManyComponents)
    else
      match parse_board b.squares board with
      | none => none
      | some (Except.error e) => some (Except.error e)
      | some (Except.ok sq) =>
        match parse_active_color active with
        | Except.error e => some (Except.error e)
        | Except.ok color =>
          match parse_castling b.castle_rights castling 0 with
          | Except.error e => some (Except.error e)
          | Except.ok cr =>
            match parse_en_passant enp with
            | Except.error e => some (Except.error e)
            | Except.ok ep =>
              match parse_halfmove half with
              | Except.error e => some (Except.error e)
              | Except.ok hm =>
                match parse_fullmove full with
                | Except.error e => some (Except.error e)
                | Except.ok fm =>
                  some (Except.ok
                    { squares := sq, castle_rights := cr, active_color := color,
                      en_passant := ep, halfmove := hm, fullmove := fm })
  | [_, _, _, _, _] => some (Except.error (FenParseErr.MissingComponent FenPart.FullMove))
  | [_, _, _, _] => some (Except.error (FenParseErr.MissingComponent FenPart.HalfMove))
  | [_, _, _] => some (Except.error (FenParseErr.MissingComponent FenPart.EnPassant))
  | [_, _] => some (Except.error (FenParseErr.MissingComponent FenPart.CastleRights))
  | [_] => some (Except.error (FenParseErr.MissingComponent FenPart.ActiveColor))
  | [] => some (Except.error (FenParseErr.MissingComponent FenPart.Board))

/-- The piece letter used by `get_fen_piece_placement`: lowercase name,
uppercased for White. -/
def piece_fen_char (p : Piece) : Char :=
  let base : Char :=
    match p &&& Piece.PieceType with
    | 1 => 'k'
    | 6 => 'q'
    | 3 => 'n'
    | 4 => 'b'
    | 5 => 'r'
    | 2 => 'p'
    | _ => '?'
  if p.is_color Player.White then base.toUpper else base

/-- One rank of `get_fen_piece_placement`: run-length-encodes the empty
squares while walking files 0..7. -/
def fen_rank (squares : List Piece) (rank : Nat) : List Char :=
  let step := fun (acc : List Char × Nat) (file : Nat) =>
    let piece := squares.getD (rank * 8 + file) Piece.emptyP
    if piece = Piece.emptyP then (acc.1, acc.2 + 1)
    else
      (acc.1 ++ (if acc.2 ≠ 0 then [Char.ofNat (48 + acc.2)] else []) ++ [piece_fen_char piece],
        0)
  let out := (List.range 8).foldl step ([], 0)
  out.1 ++ (if out.2 ≠ 0 then [Char.ofNat (48 + out.2)] else [])

/-- `get_fen_piece_placement`: ranks 7 down to 0, joined with `'/'`. -/
def get_fen_piece_placement (b : Board) : List Char :=
  List.intercalate ['/'] ((List.range 8).reverse.map (fen_rank b.squares))

/-- `CastleRights::to_fen` from `pieces.rs`. -/
def castle_rights_to_fen (cr : CastleRights) : List Char :=
  let out :=
    (if cr.has_right CastleRights.WhiteKingSide then ['K'] else [])
      ++ (if cr.has_right CastleRights.WhiteQueenSide then ['Q'] else [])
      ++ (if cr.has_right CastleRights.BlackKingSide then ['k'] else [])
      ++ (if cr.has_right CastleRights.BlackQueenSide then ['q'] else [])
  if out = [] then ['-'] else out

/-- `get_fen_en_passant`. -/
def get_fen_en_passant (b : Board) : List Char :=
  match b.en_passant.map idx_to_square_name with
  | some (some name) => name
  | _ => ['-']

/-- `u32` decimal formatting (`format!` of the counters). -/
def nat_to_chars (n : Nat) : List Char :=
  (Nat.toDigits 10 n)

/-- `get_fen`: the six fields joined with single spaces. -/
def get_fen (b : Board) : List Char :=
  get_fen_piece_placement b ++ [' ']
    ++ [(match b.active_color with | Player.White => 'w' | Player.Black => 'b')] ++ [' ']
    ++ castle_rights_to_fen b.castle_rights ++ [' ']
    ++ get_fen_en_passant b ++ [' ']
    ++ nat_to_chars b.halfmove ++ [' ']
    ++ nat_to_chars b.fullmove

end Fen

/-! ### `gen_moves.rs`: the filtered move generator

Namespace `G` holds `gen_moves.rs`, which extends the crate-root `Move`
with a promotion field, expands pawn moves onto the final ranks into four
promotion variants, filters every candidate through a make/check/discard
king-safety test (`add_move`), and checks attack maps when castling.
`unchecked_make_move` (called by `add_move`) and `make_simple_move`
(called by the search) are declared in the crate root, which is absent
from `src/`; they are modelled from the spec. -/

namespace G

/-- The `Move` struct as used by `gen_moves.rs`: square indices plus an
optional promotion piece type. -/
structure Move where
  from_ : Nat
  to_ : Nat
  promote : Option Piece := none
deriving DecidableEq, Repr

/-- `Move::from_idxs`: no promotion. -/
def Move.from_idxs (f t : Nat) : Move := ⟨f, t, none⟩

/-- `Move::with_promote`. -/
def Move.with_promote (m : Move) (p : Option Piece) : Move := { m with promote := p }

/-- Modelled from the spec: `unchecked_make_move` (declared in the crate
root, which is absent from `src/`) applies a move with no legality
validation, per spec section 4.3 step 3: en-passant capture when the
destination is the en-passant target, en-passant recomputation for a
two-rank pawn advance, rook relocation for a two-file king move, castling
rights revocation (both rights when a king moves or is captured on its
home square, the single right when a rook moves from or is captured on its
home square), promotion replacement for a pawn on the farthest rank,
origin cleared, active color flipped. -/
def unchecked_make_move (b : Board) (m : Move) : Board :=
  let sq1 :=
    if b.en_passant = some m.to_ then
      b.squares.set (usize_cast (Int.ofNat m.to_ - b.active_color.forward_value * 8)) Piece.emptyP
    else b.squares
  let piece := sq1.getD m.from_ Piece.emptyP
  let ep2 :=
    if piece &&& Piece.PieceType = Piece.Pawn
        ∧ (Int.ofNat m.from_ - Int.ofNat m.to_).natAbs = 16 then
      some (usize_cast (Int.ofNat m.to_ - b.active_color.forward_value * 8))
    else none
  let move_dist := Int.ofNat m.to_ - Int.ofNat m.from_
  let is_castle := piece &&& Piece.PieceType = Piece.King ∧ move_dist.natAbs = 2
  let sq2 :=
    if is_castle then
      let rp := get_rook_castle_pos b.active_color (decide (0 < move_dist))
      (sq1.set rp.2 (sq1.getD rp.1 Piece.emptyP)).set rp.1 Piece.emptyP
    else sq1
  let cr1 :=
    if piece &&& Piece.PieceType = Piece.King then b.castle_rights.revoke_all b.active_color
    else b.castle_rights
  let cr2 :=
    [(0, CastleRights.WhiteQueenSide), (7, CastleRights.WhiteKingSide),
      (56, CastleRights.BlackQueenSide), (63, CastleRights.BlackKingSide)].foldl
      (fun cr sq_r => if m.from_ = sq_r.1 ∨ m.to_ = sq_r.1 then cr.revoke sq_r.2 else cr) cr1
  let cr3 := if m.to_ = 4 then cr2.revoke_all Player.White else cr2
  let cr4 := if m.to_ = 60 then cr3.revoke_all Player.Black else cr3
  let placed :=
    match m.promote with
    | some t =>
      if piece &&& Piece.PieceType = Piece.Pawn ∧ (m.to_ / 8 = 0 ∨ m.to_ / 8 = 7) then
        t ||| b.active_color.to_piece_color
      else piece
    | none => piece
  { b with
    squares := (sq2.set m.to_ placed).set m.from_ Piece.emptyP
    castle_rights := cr4
    active_color := b.active_color.not
    en_passant := ep2 }

/-- `add_move` (`gen_moves.rs`): simulate the move on a clone and discard
it if the mover's own king then stands on a square attacked by the side to
move after the move. -/
def add_move (b : Board) (moves : List Move) (umove : Move) : List Move :=
  let new_board := unchecked_make_move b umove
  if (generate_attacks new_board new_board.active_color).getD
      (find_king new_board new_board.active_color.not) false then
    moves
  else moves ++ [umove]

/-- `add_pawn_move` (`gen_moves.rs`): a pawn move onto rank 0 or 7 becomes
four promotion variants. -/
def add_pawn_move (b : Board) (moves : List Move) (umove : Move) : List Move :=
  let target_rank := umove.to_ / 8
  if target_rank = 0 ∨ target_rank = 7 then
    [Piece.Knight, Piece.Bishop, Piece.Rook, Piece.Queen].foldl
      (fun moves promote => add_move b moves (umove.with_promote (some promote))) moves
  else add_move b moves umove

/-- The inner ray loop of `generate_sliding_moves` (`gen_moves.rs`). -/
def slide_ray (b : Board) (start : Nat) (dir : Direction) :
    Nat → Nat → List Move → List Move
  | 0, _, moves => moves
  | fuel + 1, step, moves =>
    let target := usize_cast (Int.ofNat start + dir.offset * Int.ofNat step)
    let target_piece := b.piece_at target
    if target_piece.is_color b.active_color then moves
    else
      let moves := add_move b moves (Move.from_idxs start target)
      if target_piece.is_color b.active_color.not then moves
      else slide_ray b start dir fuel (step + 1) moves

/-- `generate_sliding_moves` (`gen_moves.rs`). -/
def generate_sliding_moves (b : Board) (moves : List Move) (start : Nat)
    (piece : Piece) : List Move :=
  let directions :=
    match piece &&& Piece.PieceType with
    | 4 => Direction.BISHOP
    | 5 => Direction.ROOK
    | 6 => Direction.ALL
    | _ => []
  directions.foldl (fun moves dir => slide_ray b start dir (squares_to_edge start dir) 1 moves)
    moves

/-- `generate_knight_moves` (`gen_moves.rs`). -/
def generate_knight_moves (b : Board) (moves : List Move) (start : Nat) : List Move :=
  KNIGHT_MOVES.foldl
    (fun moves dxy =>
      let dx := dxy.1
      let dy := dxy.2
      let x_dir := if dx > 0 then Direction.East else Direction.West
      let y_dir := if dy > 0 then Direction.North else Direction.South
      if squares_to_edge start x_dir ≥ dx.natAbs ∧ squares_to_edge start y_dir ≥ dy.natAbs then
        let target := usize_cast (Int.ofNat start + dy * 8 + dx)
        if ¬(b.piece_at target).is_color b.active_color then
          add_move b moves (Move.from_idxs start target)
        else moves
      else moves)
    moves

/-- `generate_pawn_moves` (`gen_moves.rs`): diagonals, early return when
the square ahead is occupied, single push, double push; each through
`add_pawn_move`. -/
def generate_pawn_moves (b : Board) (moves : List Move) (start : Nat) : List Move :=
  if squares_to_edge start b.active_color.forward_dir < 1 then moves
  else
    let forward_target := usize_cast (Int.ofNat start + b.active_color.forward_value * 8)
    let moves :=
      if squares_to_edge start Direction.West ≥ 1 then
        let target := forward_target - 1
        if (b.piece_at target).is_color b.active_color.not ∨ b.en_passant = some target then
          add_pawn_move b moves (Move.from_idxs start target)
        else moves
      else moves
    let moves :=
      if squares_to_edge start Direction.East ≥ 1 then
        let target := forward_target + 1
        if (b.piece_at target).is_color b.active_color.not ∨ b.en_passant = some target then
          add_pawn_move b moves (Move.from_idxs start target)
        else moves
      else moves
    if b.squares.getD forward_target Piece.emptyP ≠ Piece.emptyP then moves
    else
      let moves := add_pawn_move b moves (Move.from_idxs start forward_target)
      if (b.active_color = Player.White ∧ start / 8 = 1)
          ∨ (b.active_color = Player.Black ∧ start / 8 = 6) then
        let target := usize_cast (Int.ofNat start + b.active_color.forward_value * 16)
        if b.piece_at target = Piece.emptyP then add_pawn_move b moves (Move.from_idxs start target)
        else moves
      else moves

/-- `generate_king_castle_directions` (`gen_moves.rs`): castle-rights
check, then the opponent attack map over the squares the king moves
across (`king_move_range`, which does not include the start square), then
the squares-in-between emptiness check, then the destination check, then
`add_move`.  Debug-only assertions are not modelled (release
semantics). -/
def generate_king_castle_directions (b : Board) (moves : List Move) (start : Nat)
    (dir : Direction) : List Move :=
  let triple : CastleRights × List Int × List Int :=
    match b.active_color, dir with
    | Player.White, Direction.West => (CastleRights.WhiteQueenSide, [-3, -2, -1], [-2, -1])
    | Player.White, Direction.East => (CastleRights.WhiteKingSide, [1, 2], [1, 2])
    | Player.Black, Direction.West => (CastleRights.BlackQueenSide, [-3, -2, -1], [-2, -1])
    | Player.Black, Direction.East => (CastleRights.BlackKingSide, [1, 2], [1, 2])
    | _, _ => (0, [], [])
  if ¬ b.castle_rights.has_right triple.1 then moves
  else
    let attacked_squares := generate_attacks b b.active_color.not
    if triple.2.2.any (fun i => attacked_squares.getD (usize_cast (Int.ofNat start + i)) false) then
      moves
    else if triple.2.1.any
        (fun i => b.squares.getD (usize_cast (Int.ofNat start + i)) Piece.emptyP ≠ Piece.emptyP) then
      moves
    else
      let target := usize_cast (Int.ofNat start + dir.offset * 2)
      if b.piece_at target ≠ Piece.emptyP then moves
      else add_move b moves (Move.from_idxs start target)

/-- `generate_king_moves` (`gen_moves.rs`). -/
def generate_king_moves (b : Board) (moves : List Move) (start : Nat) : List Move :=
  let moves :=
    Direction.ALL.foldl
      (fun moves dir =>
        if squares_to_edge start dir ≥ 1 then
          let target := usize_cast (Int.ofNat start + dir.offset)
          if (b.piece_at target).is_color b.active_color then moves
          else add_move b moves (Move.from_idxs start target)
        else moves)
      moves
  let moves := generate_king_castle_directions b moves start Direction.West
  generate_king_castle_directions b moves start Direction.East

/-- `get_moves_for` (`gen_moves.rs`). -/
def get_moves_for (b : Board) (moves : List Move) (idx : Nat) : List Move :=
  let piece := b.piece_at idx
  if ¬ piece.is_color b.active_color then moves
  else
    let piece_type := piece &&& Piece.PieceType
    if piece.is_sliding then generate_sliding_moves b moves idx piece
    else if piece_type == Piece.Knight then generate_knight_moves b moves idx
    else if piece_type == Piece.Pawn then generate_pawn_moves b moves idx
    else if piece_type == Piece.King then generate_king_moves b moves idx
    else moves

/-- `generate_moves` (`gen_moves.rs`). -/
def generate_moves (b : Board) : List Move :=
  b.squares.enum.foldl
    (fun moves ip => if ip.2.is_color b.active_color then get_moves_for b moves ip.1 else moves)
    []

/-- Modelled from the spec: `make_simple_move` (declared in the crate root,
which is absent from `src/`) — the application step the search uses on a
cloned position; per spec section 4.5 it applies the move to the clone. -/
def make_simple_move (b : Board) (m : Move) : Board :=
  unchecked_make_move b m

end G

/-! ### `ai.rs`: the negamax search

`f32` scores are embedded as `Flt`: negative infinity, positive infinity,
or a rational number.  The only float operations the search performs on
them are negation and a strict `>` comparison, which are IEEE-exact on
these values (no NaN arises from negating them, and the caller-supplied
scoring function is a pure position score per the spec). -/

/-- The subset of `f32` values the search manipulates. -/
inductive Flt
  | neg_inf
  | pos_inf
  | num (q : Rat)
deriving DecidableEq, Repr

/-- IEEE negation on these values. -/
def Flt.neg : Flt → Flt
  | neg_inf => pos_inf
  | pos_inf => neg_inf
  | num q => num (-q)

/-- IEEE strict `>` on these values. -/
def Flt.gt : Flt → Flt → Bool
  | num x, num y => x > y
  | pos_inf, pos_inf => false
  | pos_inf, _ => true
  | neg_inf, _ => false
  | num _, neg_inf => true
  | num _, pos_inf => false

namespace Ai

/-- The accumulation loop of `search` (`ai.rs` lines 30-41): `i = 0`,
`best_score = NEG_INFINITY`, keep the index of the first score strictly
exceeding the best so far. -/
def pick_best (scores : List Flt) : Nat × Flt :=
  scores.enum.foldl
    (fun acc ip => if ip.2.gt acc.2 then (ip.1, ip.2) else acc)
    (0, Flt.neg_inf)

/-- `search` (`ai.rs`): depth-0 base case returns the score of the
position; an empty move list returns negative infinity when `is_in_check`
holds for the active color and 0 otherwise; else each move is applied to a
clone with `make_simple_move`, searched one level shallower on that
clone's own generated moves, negated, and the maximum is kept. -/
def search (scoring : Board → Flt) : Nat → Board → List G.Move → Nat × Flt
  | 0, b, _ => (0, scoring b)
  | d + 1, b, moves =>
    if moves.isEmpty then
      if is_in_check b b.active_color then (0, Flt.neg_inf) else (0, Flt.num 0)
    else
      pick_best
        (moves.map fun umove =>
          let board := G.make_simple_move b umove
          Flt.neg (search scoring d board (G.generate_moves board)).2)

/-- `get_best_move` (`ai.rs`). -/
def get_best_move (b : Board) (depth : Nat) (scoring : Board → Flt) : Option G.Move :=
  let moves := G.generate_moves b
  moves.get? (search scoring depth b moves).1

end Ai

/-! ### Concrete positions and small harness definitions used by the
claim theorems -/

deriving instance DecidableEq for Except

/-- White king e1, Black rook e8, Black king b8: White is in check by any
reading of the rules. -/
def c1_board : Board :=
  ((Board.emptyB.place 4 (Piece.White ||| Piece.King)).place 60
      (Piece.Black ||| Piece.Rook)).place 57 (Piece.Black ||| Piece.King)

/-- White rook a1 and king e1 on their home squares, both White castling
rights held. -/
def c2_board : Board :=
  { (Board.emptyB.place 0 (Piece.White ||| Piece.Rook)).place 4 (Piece.White ||| Piece.King) with
    castle_rights := CastleRights.WhiteKingSide ||| CastleRights.WhiteQueenSide }

/-- White king e1 and rook h1 with the king-side right; a Black knight on
d3 attacks e1 (White is in check); Black king a8.  f1 and g1 are neither
occupied nor attacked. -/
def c3_board : Board :=
  { (((Board.emptyB.place 4 (Piece.White ||| Piece.King)).place 7
        (Piece.White ||| Piece.Rook)).place 19 (Piece.Black ||| Piece.Knight)).place 56
      (Piece.Black ||| Piece.King) with
    castle_rights := CastleRights.WhiteKingSide }

/-- A lone White pawn on a7, one square from promotion. -/
def c4_board : Board :=
  Board.emptyB.place 48 (Piece.White ||| Piece.Pawn)

/-- Checkmate: Black king a8, White queen b7 guarded by the White king on
b6, Black to move. -/
def c7_board : Board :=
  { ((Board.emptyB.place 56 (Piece.Black ||| Piece.King)).place 49
        (Piece.White ||| Piece.Queen)).place 41 (Piece.White ||| Piece.King) with
    active_color := Player.Black }

/-- The standard starting FEN used by `Board::new`. -/
def start_fen : List Char :=
  "rnbqkbnr/pppppppp/8/8/8/8/PPPPPPPP/RNBQKBNR w KQkq - 0 1".toList

/-- `Board::new`: the starting position via `load_fen` (the source
`expect`s success). -/
def start_board : Board :=
  match Fen.load_fen Board.emptyB start_fen with
  | some (Except.ok b) => b
  | _ => Board.emptyB

/-- Applies a sequence of moves with `try_move`, `none` as soon as one is
rejected: a `some` result is a position reachable from the start board. -/
def try_move_seq : Board → List L.Move → Option Board
  | b, [] => some b
  | b, m :: ms =>
    match L.try_move b m with
    | (b2, none) => try_move_seq b2 ms
    | (_, some _) => none

/-- 1. Nf3 Nf6 2. e3 e6 3. Be2 Be7 4. O-O O-O — after both sides castle,
every castling right is revoked. -/
def c6_moves : List L.Move :=
  [⟨6, 21⟩, ⟨62, 45⟩, ⟨12, 20⟩, ⟨52, 44⟩, ⟨5, 12⟩, ⟨61, 52⟩, ⟨4, 6⟩, ⟨60, 62⟩]

/-- A placement field with eight `'/'` separators: the eighth decrements
the rank counter below zero. -/
def c9_fen : List Char := "8/8/8/8/8/8/8/8/ w - - 0 1".toList

/-- White king on f2 holding the queen-side right (constructible via FEN),
rook on a1, en-passant target d2: the two-file king move f2→d2 is accepted
as a queen-side castle and relocates the a1 rook onto d1 — the very square
one rank behind the en-passant target. -/
def c10_board : Board :=
  { (Board.emptyB.place 0 (Piece.White ||| Piece.Rook)).place 13 (Piece.White ||| Piece.King) with
    castle_rights := CastleRights.WhiteQueenSide
    en_passant := some 11 }

/-- A genuine en-passant position: White pawn e5, Black pawn d5 that just
double-pushed, en-passant target d6. -/
def c10w_board : Board :=
  { (Board.emptyB.place 36 (Piece.White ||| Piece.Pawn)).place 35 (Piece.Black ||| Piece.Pawn) with
    en_passant := some 43 }

/-! ### Helper lemmas -/

/-- Setting one list index leaves `getD` at a different index unchanged. -/
theorem getD_set_ne {α : Type} (l : List α) (i j : Nat) (a d : α) (h : i ≠ j) :
    (l.set i a).getD j d = l.getD j d := by
  induction l generalizing i j with
  | nil => simp [List.set]
  | cons x xs ih =>
    cases i with
    | zero =>
      cases j with
      | zero => exact absurd rfl h
      | succ j => simp [List.set, List.getD]
    | succ i =>
      cases j with
      | zero => simp [List.set, List.getD]
      | succ j =>
        simp only [List.set, List.getD_cons_succ]
        exact ih i j (fun hij => h (by rw [hij]))

/-- `getD` after setting the same in-range index returns the new value. -/
theorem getD_set_self {α : Type} (l : List α) (i : Nat) (a d : α) (h : i < l.length) :
    (l.set i a).getD i d = a := by
  induction l generalizing i with
  | nil => simp at h
  | cons x xs ih =>
    cases i with
    | zero => simp [List.set]
    | succ i =>
      simp only [List.set, List.getD_cons_succ]
      exact ih i (Nat.lt_of_succ_lt_succ h)

/-! ### Claim theorems -/

/-- C1.  `is_in_check(position, player)` is claimed to test the attack map
of the opponent of `player` at `player`'s king square.  The source instead
tests `generate_attacks(player)` — the player's own attack map — which can
never mark the square the player's own king occupies: on `c1_board`, White
stands in check from the e8 rook (the Black attack map marks the White
king square), yet `is_in_check` returns `false`. -/
theorem c1_is_in_check_uses_own_attack_map :
    is_in_check c1_board Player.White = false ∧
      (generate_attacks c1_board Player.Black).getD (find_king c1_board Player.White) false
        = true := by
  decide

/-- C2.  After the rook leaves a1 (a1→a2) and after the king leaves e1
(e1→e2), `try_move` succeeds yet every castling right survives: the source
revokes rights only inside the castling branch (a king moving two files),
contradicting the claimed revocation on any king or home-rook move. -/
theorem c2_rights_survive_king_and_rook_moves :
    ((L.try_move c2_board ⟨0, 8⟩).2 = none ∧
        (L.try_move c2_board ⟨0, 8⟩).1.castle_rights
          = (CastleRights.WhiteKingSide ||| CastleRights.WhiteQueenSide)) ∧
      ((L.try_move c2_board ⟨4, 12⟩).2 = none ∧
        (L.try_move c2_board ⟨4, 12⟩).1.castle_rights
          = (CastleRights.WhiteKingSide ||| CastleRights.WhiteQueenSide)) := by
  decide

/-- C3.  On `c3_board` the White king's start square e1 is attacked by the
d3 knight, yet king-side castling e1→g1 is emitted by the castle generator
(and survives the `add_move` king-safety filter, appearing in
`generate_moves`): the source checks the opponent attack map only on the
squares the king moves across, never on its start square, so the claimed
"including its start square" condition is not enforced. -/
theorem c3_castle_emitted_from_attacked_start_square :
    G.generate_king_castle_directions c3_board [] 4 Direction.East = [⟨4, 6, none⟩] ∧
      G.Move.from_idxs 4 6 ∈ G.generate_moves c3_board ∧
      (generate_attacks c3_board Player.Black).getD 4 false = true := by
  decide

/-- C4.  A White pawn moving a7→a8 reaches the farthest rank with no
promotion choice (the `Move` type of `lib.rs` has no `promote` field and
`InvalidMoveErr` has no `NoPromotion` variant), yet `try_move` succeeds
and leaves the piece on a8 as a White pawn, contradicting the claimed
`NoPromotion` failure. -/
theorem c4_pawn_reaches_last_rank_without_promotion :
    (L.try_move c4_board ⟨48, 56⟩).2 = none ∧
      (L.try_move c4_board ⟨48, 56⟩).1.squares.getD 56 Piece.emptyP
        = (Piece.White ||| Piece.Pawn) := by
  decide

/-- C5.  `try_move` is atomic on failure: both error returns
(`NotYourPiece`, `IllegalMove`) happen before any mutation, so an erring
call leaves the board exactly as it was. -/
theorem c5_try_move_error_leaves_board_unchanged (b : Board) (m : L.Move)
    (h : ((L.try_move b m).2).isSome) : (L.try_move b m).1 = b := by
  unfold L.try_move at h ⊢
  by_cases h1 : b.squares.getD m.from_ Piece.emptyP &&& b.active_color.to_piece_color = 0
  · rw [if_pos h1]
  · rw [if_neg h1] at h ⊢
    by_cases h2 : ¬ ((L.get_moves_for b [] m.from_).any fun mv => mv.to_ == m.to_) = true
    · rw [if_pos h2]
    · rw [if_neg h2] at h
      simp at h

/-- Witness for C5: moving from an empty square errs with `NotYourPiece`
and the board is unchanged. -/
theorem c5_witness :
    ((L.try_move Board.emptyB ⟨0, 1⟩).2).isSome = true ∧
      (L.try_move Board.emptyB ⟨0, 1⟩).1 = Board.emptyB :=
  ⟨by decide, c5_try_move_error_leaves_board_unchanged Board.emptyB ⟨0, 1⟩ (by decide)⟩

/-- C6.  The position after 1. Nf3 Nf6 2. e3 e6 3. Be2 Be7 4. O-O O-O is
reachable by `try_move` from the starting board and holds no castling
rights, so `get_fen` renders the castling field as `-` — which
`parse_castling` rejects: the round trip `load_fen(get_fen(p))` fails with
`InvalidData` on a reachable position, contradicting the claim. -/
theorem c6_round_trip_fails_on_reachable_position :
    (try_move_seq start_board c6_moves).isSome = true ∧
      ((try_move_seq start_board c6_moves).getD Board.emptyB).castle_rights = 0 ∧
      Fen.load_fen Board.emptyB
          (Fen.get_fen ((try_move_seq start_board c6_moves).getD Board.emptyB))
        = some (Except.error (FenParseErr.InvalidData FenPart.CastleRights 0
            "character must be either 'K', 'Q', 'k', or 'q'")) := by
  decide

/-- C7.  On the checkmate position `c7_board` (Black to move, no legal
moves, Black king attacked by the White queen per the opponent attack
map), `search` at depth 1 returns score 0, not negative infinity: its
checkmate test calls the broken `is_in_check`, which consults the active
color's own attack map and is false even here. -/
theorem c7_checkmate_scores_zero :
    G.generate_moves c7_board = [] ∧
      (generate_attacks c7_board Player.White).getD (find_king c7_board Player.Black) false
        = true ∧
      Ai.search (fun _ => Flt.num 0) 1 c7_board (G.generate_moves c7_board)
        = (0, Flt.num 0) := by
  decide

/-- C8.  The string move parser: the claim says it maps algebraic square
names to `rank*8+file` indices (a1 = 0 … h8 = 63).  The source instead
adds `file-letter * 8` plus the raw digit (accepted only in 0..7):
"a1a1" parses to squares 1/1 (not 0/0), "e2e4" to 34/36 (not 12/28), and
"h8h8" — a pair of valid square names — is rejected outright. -/
theorem c8_parser_transposes_and_rejects_rank_8 :
    L.move_new "a1a1".toList = some ⟨1, 1⟩ ∧
      L.move_new "e2e4".toList = some ⟨34, 36⟩ ∧
      L.move_new "h8h8".toList = none := by
  decide

/-- C9 counterexample.  A placement field with eight `'/'` separators
drives the unguarded `rank -= 1` below zero (a panic in debug builds,
modelled as the distinguished `none` outcome): `load_fen` neither succeeds
nor returns a FEN error value. -/
theorem c9_counterexample_rank_underflow :
    Fen.load_fen Board.emptyB c9_fen = none := by
  decide

/-- The placement parser reaches no underflow while the remaining
characters hold at most `rank` slashes. -/
theorem parse_board_aux_ne_none (cs : List Char) :
    ∀ ci file rank squares, cs.count '/' ≤ rank →
      Fen.parse_board_aux cs ci file rank squares ≠ none := by
  induction cs with
  | nil =>
    intro ci file rank squares h
    simp [Fen.parse_board_aux]
  | cons c cs ih =>
    intro ci file rank squares h
    unfold Fen.parse_board_aux
    by_cases hc : c = '/'
    · rw [if_pos hc]
      subst hc
      have hcount : cs.count '/' + 1 ≤ rank := by
        simpa [List.count_cons] using h
      rw [if_neg (by omega : ¬rank = 0)]
      exact ih (ci + 1) 0 (rank - 1) squares (by omega)
    · rw [if_neg hc]
      have h2 : cs.count '/' ≤ rank := by
        simpa [List.count_cons, hc] using h
      cases hd : L.to_digit10 c with
      | some num =>
        simp only [hd]
        by_cases hnum : num = 0
        · rw [if_pos hnum]
          exact ih (ci + 1) (file + num) rank squares h2
        · rw [if_neg hnum]
          by_cases hle : rank * 8 + file + num ≤ squares.length
          · rw [if_pos hle]
            exact ih (ci + 1) (file + num) rank _ h2
          · rw [if_neg hle]
            simp
      | none =>
        simp only [hd]
        cases hp : Fen.piece_from_fen c with
        | none => simp
        | some piece =>
          simp only []
          by_cases hlt : rank * 8 + file < squares.length
          · rw [if_pos hlt]
            exact ih (ci + 1) (file + 1) rank _ h2
          · rw [if_neg hlt]
            simp

/-- C9 amended.  For every input whose placement field (the text before
the first space) holds at most seven `'/'` separators, `load_fen` is
total: it reaches no unguarded arithmetic and either succeeds or returns
a FEN error value.  (The unamended claim fails only because the
`rank -= 1` on a `'/'` is unguarded; every indexing step is bounds-checked
and every other arithmetic step is on unsigned values that cannot
underflow.) -/
theorem c9_amended_load_fen_total (b : Board) (cs : List Char)
    (h : ((Fen.split_spaces cs).headD []).count '/' ≤ 7) :
    Fen.load_fen b cs ≠ none := by
  unfold Fen.load_fen
  split
  case _ board active castling enp half full rest heq =>
    rw [heq] at h
    simp only [List.headD_cons] at h
    by_cases hrest : rest ≠ []
    · rw [if_pos hrest]
      simp
    · rw [if_neg hrest]
      cases hpb : Fen.parse_board b.squares board with
      | none =>
        exact absurd (by simpa [Fen.parse_board] using hpb)
          (parse_board_aux_ne_none board 0 0 7 b.squares h)
      | some res =>
        cases res with
        | error e => simp [hpb]
        | ok sq =>
          simp only [hpb]
          cases Fen.parse_active_color active with
          | error e => simp
          | ok color =>
            cases Fen.parse_castling b.castle_rights castling 0 with
            | error e => simp
            | ok cr =>
              cases Fen.parse_en_passant enp with
              | error e => simp
              | ok ep =>
                cases Fen.parse_halfmove half with
                | error e => simp
                | ok hm =>
                  cases Fen.parse_fullmove full with
                  | error e => simp
                  | ok fm => simp
  all_goals simp

/-- Witness for the amended C9: the starting FEN has seven separators and
parses without reaching the underflow. -/
theorem c9_witness :
    ((Fen.split_spaces start_fen).headD []).count '/' ≤ 7 ∧
      Fen.load_fen Board.emptyB start_fen ≠ none :=
  ⟨by decide, c9_amended_load_fen_total Board.emptyB start_fen (by decide)⟩

/-- C10 counterexample.  On `c10_board` the destination of the accepted
move f2→d2 is the en-passant target d2, the call succeeds — yet the square
one rank behind the target (d1) ends up holding the a1 rook, not empty:
the move is simultaneously treated as a queen-side castle and the rook
relocation lands on that square after the en-passant clearing. -/
theorem c10_counterexample_castle_refills_square :
    c10_board.en_passant = some 11 ∧
      (L.try_move c10_board ⟨13, 11⟩).2 = none ∧
      (L.try_move c10_board ⟨13, 11⟩).1.squares.getD
          (usize_cast (Int.ofNat 11 - c10_board.active_color.forward_value * 8)) Piece.emptyP
        = (Piece.White ||| Piece.Rook) := by
  decide

/-- C10 amended.  Whenever `en_passant` is the destination of a successful
`try_move` — regardless of the type of the moving piece — the square one
rank behind the target (from the mover's perspective) is left empty,
*provided* the move is not simultaneously treated as a castle (a king
moving exactly two squares), whose rook relocation may land on that very
square. -/
theorem c10_amended_en_passant_clears_square_behind (b : Board) (m : L.Move)
    (hlen : b.squares.length = 64)
    (hep : b.en_passant = some m.to_)
    (hbehind : usize_cast (Int.ofNat m.to_ - b.active_color.forward_value * 8) < 64)
    (hking : ¬(b.squares.getD m.from_ Piece.emptyP &&& Piece.PieceType = Piece.King
        ∧ (Int.ofNat m.to_ - Int.ofNat m.from_).natAbs = 2))
    (hok : (L.try_move b m).2 = none) :
    ((L.try_move b m).1).squares.getD
        (usize_cast (Int.ofNat m.to_ - b.active_color.forward_value * 8)) Piece.emptyP
      = Piece.emptyP := by
  have hBne : usize_cast (Int.ofNat m.to_ - b.active_color.forward_value * 8) ≠ m.to_ := by
    unfold usize_cast at hbehind ⊢
    cases hac : b.active_color
    all_goals simp only [Player.forward_value, Int.ofNat_eq_natCast] at hbehind ⊢
    all_goals omega
  have hlenE : usize_cast (Int.ofNat m.to_ - b.active_color.forward_value * 8)
      < b.squares.length := by
    rw [hlen]
    exact hbehind
  unfold L.try_move at hok ⊢
  by_cases h1 : b.squares.getD m.from_ Piece.emptyP &&& b.active_color.to_piece_color = 0
  · rw [if_pos h1] at hok
    exact absurd hok (by simp)
  · rw [if_neg h1] at hok ⊢
    by_cases h2 : ¬ ((L.get_moves_for b [] m.from_).any fun mv => mv.to_ == m.to_) = true
    · rw [if_pos h2] at hok
      exact absurd hok (by simp)
    · rw [if_neg h2]
      have hcastle :
          ¬((b.squares.set (usize_cast (Int.ofNat m.to_ - b.active_color.forward_value * 8))
                Piece.emptyP).getD m.from_ Piece.emptyP &&& Piece.PieceType = Piece.King
            ∧ (Int.ofNat m.to_ - Int.ofNat m.from_).natAbs = 2) := by
        by_cases hf : m.from_ = usize_cast (Int.ofNat m.to_ - b.active_color.forward_value * 8)
        · rw [hf, getD_set_self b.squares _ _ _ hlenE]
          exact fun hh => absurd hh.1 (by decide)
        · rw [getD_set_ne b.squares _ m.from_ _ _ (fun hh => hf hh.symm)]
          exact hking
      simp only [L.apply_move]
      rw [if_pos hep, if_neg hcastle]
      by_cases hf : m.from_ = usize_cast (Int.ofNat m.to_ - b.active_color.forward_value * 8)
      · rw [← hf]
        exact getD_set_self _ _ _ _ (by simp only [List.length_set]; rw [hf]; exact hlenE)
      · rw [getD_set_ne _ m.from_ _ _ _ hf,
          getD_set_ne _ m.to_ _ _ _ (fun hh => hBne hh.symm),
          getD_set_self b.squares _ _ _ hlenE]

/-- Witness for the amended C10: a genuine White en-passant capture e5×d6
(pawn from e5 onto the d6 target) leaves d5 — the square one rank behind
the target — empty, removing the Black pawn that stood there. -/
theorem c10_witness :
    (L.try_move c10w_board ⟨36, 43⟩).2 = none ∧
      (L.try_move c10w_board ⟨36, 43⟩).1.squares.getD
          (usize_cast (Int.ofNat 43 - c10w_board.active_color.forward_value * 8))
          Piece.emptyP = Piece.emptyP :=
  ⟨by decide,
    c10_amended_en_passant_clears_square_behind c10w_board ⟨36, 43⟩ (by decide) (by decide)
      (by decide) (by decide) (by decide)⟩

end Hourglass
